import Mathlib

/-!
# PropertyHub — verification of the schema-construction and account-model layer

Shallow embedding of the `MongooseSchemaBuilder` schema compiler and the
behaviors registered on the base-account model
(`src/server/config/modelSchemas/baseAccount.config.js`), together with the
standalone helper implementations under
`src/server/utils/models/baseAccountModel/` and the type mapper
`src/server/utils/db/typeMapper.js`.

JavaScript runtime values that the code inspects dynamically (`typeof`,
`Array.isArray`, truthiness) are embedded as an inductive `JSVal`; machine
time (`Date.now()`) is an integer count of milliseconds; documents are
records over the schema's fields.
-/

namespace PropertyHub

/-! ## String primitives

`String.prototype.trim` and `String.prototype.toLowerCase` are embedded as
character-list operations (standard whitespace; ASCII case folding, which
covers every input the account model constrains). -/

/-- Models `s.trim()`: strip leading and trailing whitespace. -/
def jsTrim (s : String) : String :=
  ⟨((s.data.dropWhile Char.isWhitespace).reverse.dropWhile Char.isWhitespace).reverse⟩

/-- Models `s.toLowerCase()`. -/
def jsToLower (s : String) : String :=
  ⟨s.data.map Char.toLower⟩

/-! ## JavaScript value embedding (the fragment inspected by the builder) -/

/-- A JavaScript runtime value, restricted to the shapes that
`MongooseSchemaBuilder.createModel` inspects: strings, numbers, booleans,
`null`, `undefined`, arrays and plain objects (ordered key/value lists). -/
inductive JSVal where
  | str (s : String)
  | num (n : Int)
  | bool (b : Bool)
  | nullV
  | undefV
  | arr (elems : List JSVal)
  | obj (entries : List (String × JSVal))

namespace JSVal

/-- The JavaScript test `typeof v === 'string'`. -/
def isString : JSVal → Bool
  | .str _ => true
  | _ => false

/-- The JavaScript test `typeof v === 'object'` (`null` and arrays included,
`undefined`, strings, numbers and booleans excluded). -/
def typeofIsObject : JSVal → Bool
  | .obj _ => true
  | .arr _ => true
  | .nullV => true
  | _ => false

/-- The JavaScript test `Array.isArray(v)`. -/
def isArray : JSVal → Bool
  | .arr _ => true
  | _ => false

/-- JavaScript truthiness of a value: `false`, `0`, `""`, `null` and
`undefined` are falsy, everything else (objects and arrays included) is
truthy. -/
def truthy : JSVal → Bool
  | .str s => !s.data.isEmpty
  | .num n => n != 0
  | .bool b => b
  | .nullV => false
  | .undefV => false
  | .arr _ => true
  | .obj _ => true

/-- Property access `v.k` on a JavaScript value: the last binding of `k` in
an object (later keys of a literal overwrite earlier ones on construction;
lookup sees the final binding), `undefined` when the key is absent or the
value is not an object. -/
def get (v : JSVal) (k : String) : JSVal :=
  match v with
  | .obj entries =>
      match (entries.reverse.find? (fun p => p.1 = k)) with
      | some p => p.2
      | none => .undefV
  | _ => .undefV

end JSVal

/-! ## Schema compiler (`MongooseSchemaBuilder`, src/unnamed/part_000 error
messages, `createModel` / `validateModelName` / `validateConfigStructure`) -/

/-- The configuration-error kinds of `ERROR_MESSAGES.MONGOOSE_BUILDER_MESSAGES`
raised by the schema builder. -/
inductive ConfigErrorKind where
  | INVALID_MODEL_NAME
  | INVALID_CONFIG_STRUCTURE
  | MISSING_FIELDS_OBJECT
  deriving Repr, DecidableEq

/-- Embeds `MongooseSchemaBuilder.validateModelName`: throws `INVALID_MODEL_NAME`
unless `typeof modelName === 'string'` and `modelName.trim()` is truthy
(non-empty after trimming). -/
def validateModelName (modelName : JSVal) : Except ConfigErrorKind Unit :=
  match modelName with
  | .str s => if (jsTrim s).data.isEmpty then .error .INVALID_MODEL_NAME else .ok ()
  | _ => .error .INVALID_MODEL_NAME

/-- Embeds `MongooseSchemaBuilder.validateConfigStructure`: first the structure
check (`!config || typeof config !== 'object' || Array.isArray(config)` →
`INVALID_CONFIG_STRUCTURE`), then the fields-presence check
(`!config.fields` → `MISSING_FIELDS_OBJECT`). -/
def validateConfigStructure (config : JSVal) : Except ConfigErrorKind Unit :=
  if !config.truthy || !config.typeofIsObject || config.isArray then
    .error .INVALID_CONFIG_STRUCTURE
  else if !(config.get ("fields")).truthy then
    .error .MISSING_FIELDS_OBJECT
  else
    .ok ()

/-- The compiled artifact of `createModel` that the validation claims talk
about: the model name and the `fields` object the schema is built from. -/
structure CompiledModel where
  name : String
  fields : JSVal

/-- Embeds `MongooseSchemaBuilder.createModel`: validates the model name, then the
configuration structure, then builds the schema from `config.fields`. -/
def createModel (modelName config : JSVal) : Except ConfigErrorKind CompiledModel :=
  match validateModelName modelName with
  | .error e => .error e
  | .ok () =>
    match validateConfigStructure config with
    | .error e => .error e
    | .ok () =>
      match modelName with
      | .str s => .ok { name := s, fields := config.get ("fields") }
      | _ => .error .INVALID_MODEL_NAME

/-! ## Type mapper (`src/server/utils/db/typeMapper.js`, `mapToMongooseType`) -/

/-- An abstract field-type descriptor, the `field.type` value inspected by
`mapToMongooseType`: missing/`undefined`, a type tag (a name such as
`"String"`; in the source the tag may also be the JS constructor itself,
which falls through the table lookup and passes through unchanged, which is
behaviorally the same as its mapping), an array of element types, or a plain
nested object of field descriptors (a subdocument). -/
inductive FieldType where
  | undefV
  | tag (s : String)
  | arr (elems : List FieldType)
  | obj (fields : List (String × FieldType))

/-- The fixed concrete Mongoose types of the `typeMap` table. -/
inductive PrimType where
  | pString | pNumber | pBoolean | pDate | pObjectId | pArray | pMixed
  | pBuffer | pDecimal128 | pMap
  deriving Repr, DecidableEq

/-- The result of the type mapper: a concrete primitive type, a subdocument
schema (`new mongoose.Schema(schemaConverter(field.type))`), a
repeated-element wrapper (`[{ type: ... }]`), an unrecognized tag passed
through unchanged, or `undefined`. `σ` is the type of compiled subdocument
schemas produced by the injected `schemaConverter` callback. -/
inductive MongooseType (σ : Type) where
  | prim (p : PrimType)
  | subdoc (schema : σ)
  | arrayOf (elem : MongooseType σ)
  | pass (tag : String)
  | undefV

/-- The fixed `typeMap` table of primitive-tag → concrete-type mappings. -/
def typeMap : String → Option PrimType
  | "String" => some .pString
  | "Number" => some .pNumber
  | "Boolean" => some .pBoolean
  | "Date" => some .pDate
  | "ObjectId" => some .pObjectId
  | "Array" => some .pArray
  | "Mixed" => some .pMixed
  | "Buffer" => some .pBuffer
  | "Decimal128" => some .pDecimal128
  | "Map" => some .pMap
  | _ => none

/-- Embeds `mapToMongooseType(field, schemaConverter)`: a plain nested object
becomes a subdocument via the supplied converter callback; an array becomes
a repeated-element wrapper around the recursive mapping of its first element
(`field.type[0]`, which is `undefined` for an empty array); otherwise the
tag is looked up in `typeMap`, an unknown tag passes through unchanged
(`typeMap[field.type] || field.type`), and a missing type maps to
`undefined`. -/
def mapToMongooseType {σ : Type} (schemaConverter : List (String × FieldType) → σ) :
    FieldType → MongooseType σ
  | .obj fields => .subdoc (schemaConverter fields)
  | .arr [] => .arrayOf .undefV
  | .arr (t :: _) => .arrayOf (mapToMongooseType schemaConverter t)
  | .tag s =>
      match typeMap s with
      | some p => .prim p
      | none => .pass s
  | .undefV => .undefV

/-! ## Account data model (`baseAccount.config.js` fields) -/

/-- The account lifecycle states of the `accountStatus` enum. -/
inductive AccountStatus where
  | active | pending | suspended | deactivated
  deriving Repr, DecidableEq

/-- The `profile` subdocument (only the fields the claims touch). -/
structure Profile where
  firstName : String
  lastName : String
  deriving Repr, DecidableEq

/-- One `loginHistory` entry. -/
structure LoginEntry where
  ipAddress : String
  loginAt : Int
  success : Bool
  userAgent : String
  deriving Repr, DecidableEq

/-- The `security` subdocument fields addressed by the registered methods
(`this.security.*` in `verifyEmail` / `generateEmailVerificationToken`). -/
structure SecurityState where
  isEmailVerified : Bool
  emailVerificationToken : Option String
  deriving Repr, DecidableEq

/-- An account document. Times are milliseconds since the epoch
(`Date.now()`), as `Int`. `password = none` models an absent/unset password.
`failedLoginAttempts` and `lockUntil` are the document properties addressed
at the top level of the document by the configuration's registered methods
(`this.failedLoginAttempts`, `this.lockUntil`) and by the `lockedStatus`
virtual; they are `Option`-valued because a property never assigned reads as
`undefined`. -/
structure Account where
  id : Nat
  username : String
  email : String
  password : Option String
  phoneNumber : Option String
  profile : Profile
  accountStatus : AccountStatus
  deletedAt : Option Int
  failedLoginAttempts : Option Nat
  lockUntil : Option Int
  security : SecurityState
  loginHistory : List LoginEntry
  deriving Repr, DecidableEq

/-! ## Registered pre hooks (`baseAccount.config.js`, `hooks.pre`)

The account model is compiled from `baseAccountModelConfig` by
`MongooseSchemaBuilder.createModel` (see the unit tests), so the hooks that
actually run on a save are the configuration's `pre.validate` (Mongoose runs
validation, and with it the pre-validate hooks, as part of every `save`)
followed by `pre.save`. The standalone helper
`src/server/utils/models/baseAccountModel/baseAccountHooks.js` is imported
nowhere and is not registered. -/

/-- A JavaScript word character, `\w` = `[A-Za-z0-9_]`. -/
def jsIsWordChar (c : Char) : Bool :=
  ('a' ≤ c && c ≤ 'z') || ('A' ≤ c && c ≤ 'Z') || ('0' ≤ c && c ≤ '9') || c = '_'

/-- Core of `str.replace(/\b\w/g, char => char.toUpperCase())`: uppercase
every word character at a word boundary (string start or preceded by a
non-word character). The boolean argument records whether the previous
character was a word character. -/
def capWordInitialsAux : Bool → List Char → List Char
  | _, [] => []
  | prevWord, c :: cs =>
      (if jsIsWordChar c && !prevWord then c.toUpper else c) ::
        capWordInitialsAux (jsIsWordChar c) cs

/-- Applies `str.replace(/\b\w/g, char => char.toUpperCase())`. -/
def capWordInitials (s : String) : String :=
  ⟨capWordInitialsAux false s.data⟩

/-- The configuration's registered `hooks.pre.validate`: trim+lowercase the
email when truthy; trim the names and capitalize the first letter of every
word when truthy (no lowercasing of the remaining letters). -/
def preValidateHook (a : Account) : Account :=
  let a1 := if !a.email.data.isEmpty then { a with email := jsToLower (jsTrim a.email) } else a
  let a2 :=
    if !a1.profile.firstName.data.isEmpty then
      { a1 with profile := { a1.profile with
          firstName := capWordInitials (jsTrim a1.profile.firstName) } }
    else a1
  if !a2.profile.lastName.data.isEmpty then
    { a2 with profile := { a2.profile with
        lastName := capWordInitials (jsTrim a2.profile.lastName) } }
  else a2

/-- The configuration's registered `hooks.pre.save`: hash the password when
it was modified, otherwise leave the document untouched. The bcrypt hash is
abstracted as the `hash` parameter. -/
def preSaveHook (hash : String → String) (passwordModified : Bool) (a : Account) : Account :=
  if passwordModified then { a with password := a.password.map hash } else a

/-- The registered save pipeline of the compiled account model: pre-validate
hook, then pre-save hook. -/
def runSaveHooks (hash : String → String) (passwordModified : Bool) (a : Account) : Account :=
  preSaveHook hash passwordModified (preValidateHook a)

/-- A find query: an optional explicit `accountStatus` constraint, plus the
remaining conditions abstracted as a predicate. `accountStatus = none`
models a query object whose `accountStatus` key is absent (falsy in the
source's `!this.getQuery().accountStatus` test; every present enum value is
a non-empty string, hence truthy). -/
structure FindQuery where
  accountStatus : Option AccountStatus
  cond : Account → Bool

/-- A document matches a query when it satisfies the `accountStatus`
constraint (if any) and the remaining conditions. -/
def matchesQuery (q : FindQuery) (a : Account) : Bool :=
  (match q.accountStatus with
   | some st => a.accountStatus = st
   | none => true) && q.cond a

/-- The configuration's registered `hooks.pre.find`: if the query does not
constrain `accountStatus`, add `accountStatus: 'active'`
(`this.where({ accountStatus: 'active' })`). -/
def preFindHook (q : FindQuery) : FindQuery :=
  if q.accountStatus.isNone then { q with accountStatus := some .active } else q

/-- A `find` on the compiled account model: the pre-find hook runs on the
query, then the store returns every matching document. -/
def findAccounts (q : FindQuery) (db : List Account) : List Account :=
  db.filter (matchesQuery (preFindHook q))

/-! ## Registered post hooks (`baseAccount.config.js`, `hooks.post`)

The `hooks.post` object literal spells the key `'save'` twice. JavaScript
object-literal construction keeps one property per key, with the last
occurrence's value; `MongooseSchemaBuilder.applyHooks` then registers
`Object.entries(hooks.post)`. -/

/-- The two post-save handlers written in the `hooks.post` literal. -/
inductive PostSaveHandler where
  | removePassword
  | logStatusChange
  deriving Repr, DecidableEq

/-- Document effect of a post-save handler: the first literal entry sets
`doc.password = undefined`; the second only writes a console log when
`accountStatus` changed and leaves the document unchanged. -/
def runPostSaveHandler : PostSaveHandler → Account → Account
  | .removePassword, d => { d with password := none }
  | .logStatusChange, d => d

/-- JavaScript object-literal construction from an ordered list of key/value
pairs: a repeated key keeps its original position but takes the later
value. -/
def jsObjectLiteral {α : Type} (pairs : List (String × α)) : List (String × α) :=
  pairs.foldl
    (fun obj kv =>
      if obj.any (fun p => p.1 = kv.1) then
        obj.map (fun p => if p.1 = kv.1 then kv else p)
      else obj ++ [kv])
    []

/-- The `hooks.post` object literal of `baseAccountModelConfig`, in source
order: `save: remove-password`, then `save: log-status-change`. -/
def hooksPostLiteral : List (String × PostSaveHandler) :=
  [("save", .removePassword), ("save", .logStatusChange)]

/-- The handlers `applyHooks` registers for the `save` event:
`Object.entries` of the constructed `hooks.post` object, filtered to the
`save` key. -/
def registeredPostSaveHandlers : List PostSaveHandler :=
  (jsObjectLiteral hooksPostLiteral).filterMap
    (fun p => if p.1 = "save" then some p.2 else none)

/-- Running every registered post-save handler on a saved document, in
registration order. -/
def runPostSave (d : Account) : Account :=
  registeredPostSaveHandlers.foldl (fun d h => runPostSaveHandler h d) d

/-! ## Registered instance methods (`baseAccount.config.js`, `methods`) -/

/-- Embeds `methods.incrementFailedLogins`:
`this.failedLoginAttempts = (this.failedLoginAttempts || 0) + 1`, and when
the new count is at least `MAX_ATTEMPTS = 5`, set `lockUntil` to
`Date.now() + 15 * 60 * 1000`. `now` is `Date.now()` in milliseconds. -/
def incrementFailedLogins (now : Int) (a : Account) : Account :=
  let n := a.failedLoginAttempts.getD 0 + 1
  { a with
    failedLoginAttempts := some n,
    lockUntil := if n ≥ 5 then some (now + 15 * 60 * 1000) else a.lockUntil }

/-- Embeds `methods.resetFailedLogins`: unconditionally set the counter to `0` and
`lockUntil` to `null`. -/
def resetFailedLogins (a : Account) : Account :=
  { a with failedLoginAttempts := some 0, lockUntil := none }

/-- Embeds `methods.isLocked`: `this.lockUntil && this.lockUntil > Date.now()`. A
`null`/`undefined` `lockUntil` is falsy; a set `lockUntil` reports locked
exactly when it lies strictly in the future. -/
def isLocked (now : Int) (a : Account) : Bool :=
  match a.lockUntil with
  | none => false
  | some t => t > now

/-- The `lockedStatus` virtual getter:
`this.lockUntil && this.lockUntil > Date.now()`. -/
def lockedStatus (now : Int) (a : Account) : Bool :=
  match a.lockUntil with
  | none => false
  | some t => t > now

/-- Embeds `methods.verifyEmail(token)`: throw `'Invalid verification token'`
unless `this.security.emailVerificationToken === token` (strict equality;
`undefined === undefined` holds, so both sides absent compare equal);
on success set `isEmailVerified`, clear the stored token, save and return
the document. The argument is `Option`-valued so that calling with
`undefined` is representable. -/
def verifyEmail (token : Option String) (a : Account) : Except String Account :=
  if a.security.emailVerificationToken ≠ token then
    .error ("Invalid verification token")
  else
    .ok { a with security := { a.security with
            isEmailVerified := true, emailVerificationToken := none } }

/-- Embeds `addLoginHistory` (helper instance method,
`baseAccountModel/baseAccountMethods.js`): `unshift` the new entry onto the
front of `loginHistory`, then truncate with `slice(0, 10)` when the length
exceeds `MAX_HISTORY_LENGTH = 10`, then save. -/
def addLoginHistory (entry : LoginEntry) (history : List LoginEntry) : List LoginEntry :=
  let h := entry :: history
  if h.length > 10 then h.take 10 else h

/-! ## Registered statics (`baseAccount.config.js`, `statics`) -/

/-- The error kinds thrown by `statics.softDelete`: `'Document not found'`
(not-found) and `'Permanent deletion is not allowed. Use soft delete.'`
(conflict on an already-deactivated record). -/
inductive SoftDeleteError where
  | notFound
  | alreadyDeleted
  deriving Repr, DecidableEq

/-- Persisting a saved document: replace the stored document with the same
identity. -/
def saveDoc (doc : Account) (db : List Account) : List Account :=
  db.map (fun a => if a.id = doc.id then doc else a)

/-- Embeds `statics.softDelete(query)`: `findOne(query)` (first matching record;
the pre-find hook is registered for the `find` event only, so `findOne` sees
the raw query); throw not-found if none; throw the conflict error, without
writing, if the record is already `deactivated`; otherwise set
`accountStatus = 'deactivated'` and `deletedAt = new Date()`, save, and
return the updated record. The result pairs the outcome with the store
contents after the call. -/
def softDelete (q : Account → Bool) (now : Int) (db : List Account) :
    Except SoftDeleteError Account × List Account :=
  match db.find? q with
  | none => (.error .notFound, db)
  | some doc =>
    if doc.accountStatus = .deactivated then
      (.error .alreadyDeleted, db)
    else
      let updated := { doc with accountStatus := .deactivated, deletedAt := some now }
      (.ok updated, saveDoc updated db)

/-! ## `statics.searchUsers` and the regular-expression fragment it builds

`searchUsers(query)` filters active accounts by
`new RegExp(query, 'i')` matched against `profile.firstName`,
`profile.lastName` and `email`. The query string is interpolated into the
pattern without escaping. The embedding below models JavaScript regular
expressions on the fragment in which every pattern character is either a
literal or the `.` wildcard; patterns using other metacharacters are outside
the model. -/

/-- One compiled pattern token: a literal character or the `.` wildcard. -/
inductive RegexTok where
  | lit (c : Char)
  | anyChar
  deriving Repr, DecidableEq

/-- Compiling `new RegExp(pattern, 'i')` on the modelled fragment: `.`
becomes the wildcard, every other character a literal. -/
def compileRegexI (pattern : String) : List RegexTok :=
  pattern.data.map (fun c => if c = '.' then .anyChar else .lit c)

/-- JavaScript line terminators, which `.` does not match (no `s` flag). -/
def isLineTerminator (c : Char) : Bool :=
  c = '\n' || c = '\r' || c.toNat = 8232 || c.toNat = 8233

/-- Whether one token matches one subject character, under the `i` flag
(case canonicalization, modelled as lowercasing). -/
def tokMatches : RegexTok → Char → Bool
  | .anyChar, c => !isLineTerminator c
  | .lit l, c => l.toLower = c.toLower

/-- Whether the token list matches a prefix of the subject. -/
def matchesHere : List RegexTok → List Char → Bool
  | [], _ => true
  | _ :: _, [] => false
  | t :: ts, c :: cs => tokMatches t c && matchesHere ts cs

/-- Models `new RegExp(pattern, 'i').test(s)` on the modelled fragment: the token
list matches at some position of the subject. -/
def regexTestI (pattern s : String) : Bool :=
  s.data.tails.any (matchesHere (compileRegexI pattern))

/-- Embeds `statics.searchUsers(query)`: every stored account with
`accountStatus: 'active'` for which the unescaped case-insensitive regex
built from `query` matches `profile.firstName`, `profile.lastName` or
`email`. (The pre-find hook sees `accountStatus` already constrained and
injects nothing.) -/
def searchUsers (query : String) (db : List Account) : List Account :=
  db.filter (fun a =>
    decide (a.accountStatus = .active) &&
      (regexTestI query a.profile.firstName ||
       regexTestI query a.profile.lastName ||
       regexTestI query a.email))

/-- Case-insensitive prefix comparison of character lists. -/
def isPrefixCI : List Char → List Char → Bool
  | [], _ => true
  | _ :: _, [] => false
  | c :: cs, d :: ds => (c.toLower = d.toLower) && isPrefixCI cs ds

/-- Case-insensitive literal substring containment — the relation the
specification describes for `searchUsers` ("the query occurs literally as a
substring of at least one of those three fields", case-insensitively). -/
def containsCI (needle hay : String) : Bool :=
  hay.data.tails.any (isPrefixCI needle.data)

/-- The JavaScript regular-expression metacharacters; a query containing
none of these is interpreted by `new RegExp` as a literal string. -/
def regexMetachars : List Char :=
  ['.', '*', '+', '?', '^', '$', '(', ')', '[', ']', '\x7b', '\x7d', '|', '\\']

/-- Whether a query string is free of regex metacharacters. -/
def noRegexMetachars (q : String) : Bool :=
  q.data.all (fun c => !regexMetachars.contains c)

/-! ## Sample data for concrete evaluations -/

/-- A concrete active account used to evaluate the operations on concrete
inputs. -/
def sampleAccount : Account where
  id := 1
  username := "alee"
  email := "ann@site"
  password := some ("hashed")
  phoneNumber := none
  profile := { firstName := "Ann", lastName := "Lee" }
  accountStatus := .active
  deletedAt := none
  failedLoginAttempts := none
  lockUntil := none
  security := { isEmailVerified := false, emailVerificationToken := none }
  loginHistory := []

/-- A concrete deactivated account. -/
def deactivatedAccount : Account :=
  { sampleAccount with
    id := 2
    username := "bdoe"
    email := "bob@site"
    accountStatus := .deactivated }

/-- A concrete login-history entry whose timestamp is `i`. -/
def sampleEntry (i : Nat) : LoginEntry :=
  { ipAddress := "192.168.1.1", loginAt := (i : Int), success := true, userAgent := "ua" }

/-!
# Theorems
-/

/-- Structure validation rejects `null` before looking at `fields`. -/
theorem validateConfigStructure_nullV :
    validateConfigStructure .nullV = .error .INVALID_CONFIG_STRUCTURE := rfl

/-- Structure validation rejects `undefined` before looking at `fields`. -/
theorem validateConfigStructure_undefV :
    validateConfigStructure .undefV = .error .INVALID_CONFIG_STRUCTURE := rfl

/-- Structure validation rejects an array before looking at `fields`. -/
theorem validateConfigStructure_arr (es : List JSVal) :
    validateConfigStructure (.arr es) = .error .INVALID_CONFIG_STRUCTURE := rfl

/-- On a plain object the structure check passes and only the
fields-presence check remains. -/
theorem validateConfigStructure_obj (entries : List (String × JSVal)) :
    validateConfigStructure (.obj entries) =
      if !((JSVal.obj entries).get ("fields")).truthy then .error .MISSING_FIELDS_OBJECT
      else .ok () := rfl

/-- C1: For every model name in {empty string, whitespace-only string, null,
undefined, non-string value}, `createModel` fails with
`INVALID_MODEL_NAME`; for a name that passes name validation, a
null/undefined/array config fails with `INVALID_CONFIG_STRUCTURE` and an
object config without a (truthy) `fields` property fails with
`MISSING_FIELDS_OBJECT` — in particular the structure check fires before
the fields-presence check on null/undefined/array configs, which also lack
`fields`; and the minimal config `{fields: {name: String}}` with a valid
name compiles without error. -/
theorem C1_createModel_validation :
    (∀ (s : String) (config : JSVal), jsTrim s = "" →
      createModel (.str s) config = .error .INVALID_MODEL_NAME) ∧
    (∀ config : JSVal, createModel .nullV config = .error .INVALID_MODEL_NAME) ∧
    (∀ config : JSVal, createModel .undefV config = .error .INVALID_MODEL_NAME) ∧
    (∀ (n : Int) (config : JSVal), createModel (.num n) config = .error .INVALID_MODEL_NAME) ∧
    (∀ (b : Bool) (config : JSVal), createModel (.bool b) config = .error .INVALID_MODEL_NAME) ∧
    (∀ (es : List JSVal) (config : JSVal),
      createModel (.arr es) config = .error .INVALID_MODEL_NAME) ∧
    (∀ (entries : List (String × JSVal)) (config : JSVal),
      createModel (.obj entries) config = .error .INVALID_MODEL_NAME) ∧
    (∀ name : JSVal, validateModelName name = .ok () →
      createModel name .nullV = .error .INVALID_CONFIG_STRUCTURE ∧
      createModel name .undefV = .error .INVALID_CONFIG_STRUCTURE ∧
      (∀ es : List JSVal, createModel name (.arr es) = .error .INVALID_CONFIG_STRUCTURE) ∧
      (∀ entries : List (String × JSVal),
        ((JSVal.obj entries).get ("fields")).truthy = false →
        createModel name (.obj entries) = .error .MISSING_FIELDS_OBJECT)) ∧
    (createModel (.str ("User")) (.obj [("fields", .obj [("name", .str ("String"))])]) =
      .ok { name := "User", fields := .obj [("name", .str ("String"))] }) := by
  refine ⟨?_, ?_, ?_, ?_, ?_, ?_, ?_, ?_, ?_⟩
  · intro s config hs
    have hd : (jsTrim s).data = [] := by rw [hs]
    simp [createModel, validateModelName, hd]
  · intro config; rfl
  · intro config; rfl
  · intro n config; rfl
  · intro b config; rfl
  · intro es config; rfl
  · intro entries config; rfl
  · intro name hname
    refine ⟨?_, ?_, ?_, ?_⟩
    · simp [createModel, hname, validateConfigStructure_nullV]
    · simp [createModel, hname, validateConfigStructure_undefV]
    · intro es
      simp [createModel, hname, validateConfigStructure_arr]
    · intro entries hfields
      simp [createModel, hname, validateConfigStructure_obj, hfields]
  · rfl

/-- Witness for C1: the validation outcomes at concrete inputs. -/
theorem C1_createModel_validation_witness :
    createModel (.str (" ")) (.obj [("fields", .obj [])]) = .error .INVALID_MODEL_NAME ∧
    createModel (.str ("User")) .nullV = .error .INVALID_CONFIG_STRUCTURE ∧
    createModel (.str ("User")) (.obj []) = .error .MISSING_FIELDS_OBJECT := by
  obtain ⟨h1, -, -, -, -, -, -, h8, -⟩ := C1_createModel_validation
  exact ⟨h1 (" ") _ (by decide),
    (h8 (.str ("User")) (by rfl)).1,
    (h8 (.str ("User")) (by rfl)).2.2.2 [] (by rfl)⟩

/-- C6: the type mapper is total and recursive — every primitive tag of the
fixed table maps to its fixed concrete type; a single-element array maps to
a repeated-element wrapper around the recursive mapping of its element; a
plain nested object maps to a subdocument built by the supplied
subdocument-compiler callback; a tag not in the table passes through
unchanged; and an undefined type maps to undefined. -/
theorem C6_typeMapper_total_recursive :
    (∀ (σ : Type) (conv : List (String × FieldType) → σ),
      mapToMongooseType conv (.tag ("String")) = .prim .pString ∧
      mapToMongooseType conv (.tag ("Number")) = .prim .pNumber ∧
      mapToMongooseType conv (.tag ("Boolean")) = .prim .pBoolean ∧
      mapToMongooseType conv (.tag ("Date")) = .prim .pDate ∧
      mapToMongooseType conv (.tag ("ObjectId")) = .prim .pObjectId ∧
      mapToMongooseType conv (.tag ("Array")) = .prim .pArray ∧
      mapToMongooseType conv (.tag ("Mixed")) = .prim .pMixed ∧
      mapToMongooseType conv (.tag ("Buffer")) = .prim .pBuffer ∧
      mapToMongooseType conv (.tag ("Decimal128")) = .prim .pDecimal128 ∧
      mapToMongooseType conv (.tag ("Map")) = .prim .pMap) ∧
    (∀ (σ : Type) (conv : List (String × FieldType) → σ) (t : FieldType),
      mapToMongooseType conv (.arr [t]) = .arrayOf (mapToMongooseType conv t)) ∧
    (∀ (σ : Type) (conv : List (String × FieldType) → σ)
        (fields : List (String × FieldType)),
      mapToMongooseType conv (.obj fields) = .subdoc (conv fields)) ∧
    (∀ (σ : Type) (conv : List (String × FieldType) → σ) (s : String),
      typeMap s = none → mapToMongooseType conv (.tag s) = .pass s) ∧
    (∀ (σ : Type) (conv : List (String × FieldType) → σ),
      mapToMongooseType conv .undefV = .undefV) := by
  refine ⟨fun σ conv => ⟨rfl, rfl, rfl, rfl, rfl, rfl, rfl, rfl, rfl, rfl⟩,
    fun σ conv t => rfl, fun σ conv fields => rfl, ?_, fun σ conv => rfl⟩
  intro σ conv s hs
  simp [mapToMongooseType, hs]

/-- Witness for C6: an unknown tag passes through unchanged at a concrete
input. -/
theorem C6_typeMapper_total_recursive_witness :
    mapToMongooseType (σ := Unit) (fun _ => ()) (.tag ("Custom")) = .pass ("Custom") :=
  C6_typeMapper_total_recursive.2.2.2.1 Unit (fun _ => ()) "Custom" (by rfl)

/-- One `addLoginHistory` call yields `min (|history| + 1) 10` entries. -/
theorem length_addLoginHistory (e : LoginEntry) (h : List LoginEntry) :
    (addLoginHistory e h).length = min (h.length + 1) 10 := by
  simp only [addLoginHistory]
  split
  · simp only [List.length_take, List.length_cons]
    omega
  · next hgt =>
      simp only [List.length_cons] at hgt ⊢
      omega

/-- The entry just added sits at index 0. -/
theorem head_addLoginHistory (e : LoginEntry) (h : List LoginEntry) :
    (addLoginHistory e h).head? = some e := by
  simp only [addLoginHistory]
  split <;> rfl

/-- Length after a sequence of `addLoginHistory` calls. -/
theorem length_foldl_addLoginHistory (es : List LoginEntry) :
    ∀ h : List LoginEntry, h.length ≤ 10 →
      (es.foldl (fun h e => addLoginHistory e h) h).length = min (h.length + es.length) 10 := by
  induction es with
  | nil => intro h hh; simp; omega
  | cons e es ih =>
      intro h hh
      simp only [List.foldl_cons]
      rw [ih _ (by rw [length_addLoginHistory]; omega), length_addLoginHistory]
      simp only [List.length_cons]
      omega

/-- After a nonempty sequence of calls, the head is the last-added entry. -/
theorem head_foldl_addLoginHistory (es : List LoginEntry) :
    ∀ h : List LoginEntry, es ≠ [] →
      (es.foldl (fun h e => addLoginHistory e h) h).head? = es.getLast? := by
  induction es with
  | nil => intro h hne; exact absurd rfl hne
  | cons e es ih =>
      intro h hne
      rw [List.foldl_cons]
      cases es with
      | nil => simp [head_addLoginHistory]
      | cons e2 es2 =>
          rw [ih (addLoginHistory e h) (by simp), List.getLast?_cons_cons]

/-- C7: `addLoginHistory` prepends the new entry at index 0 and truncates to
the first 10 entries, so every call leaves at most 10 entries whatever the
starting history; in particular adding 12 entries to an empty history leaves
exactly 10, with the most recently added entry at index 0. -/
theorem C7_loginHistory_cap :
    (∀ (e : LoginEntry) (h : List LoginEntry),
      (addLoginHistory e h).length ≤ 10 ∧ (addLoginHistory e h).head? = some e) ∧
    (∀ es : List LoginEntry, es.length = 12 →
      ((es.foldl (fun h e => addLoginHistory e h) []).length = 10 ∧
       (es.foldl (fun h e => addLoginHistory e h) []).head? = es.getLast?)) := by
  constructor
  · intro e h
    refine ⟨?_, head_addLoginHistory e h⟩
    rw [length_addLoginHistory]
    omega
  · intro es hlen
    refine ⟨?_, ?_⟩
    · rw [length_foldl_addLoginHistory es [] (by simp)]
      simp [hlen]
    · refine head_foldl_addLoginHistory es [] ?_
      intro hc
      rw [hc] at hlen
      simp at hlen

/-- Witness for C7: twelve concrete entries leave exactly ten, newest
first. -/
theorem C7_loginHistory_cap_witness :
    (((List.range 12).map sampleEntry).foldl (fun h e => addLoginHistory e h) []).length = 10 ∧
    (((List.range 12).map sampleEntry).foldl (fun h e => addLoginHistory e h) []).head? =
      ((List.range 12).map sampleEntry).getLast? :=
  C7_loginHistory_cap.2 ((List.range 12).map sampleEntry) (by decide)

/-- C4: `incrementFailedLogins` increments the counter by one and, once the
count reaches 5 (in particular at the fifth call from a zero count), sets
`lockUntil` to now + 15 minutes while leaving it unchanged below 5;
`isLocked` and the `lockedStatus` virtual report locked exactly when
`lockUntil` is set and strictly in the future (an expired lock reads as
unlocked); `resetFailedLogins` unconditionally zeroes the counter and clears
`lockUntil`, after which `isLocked` is false. -/
theorem C4_lockout (now : Int) (a : Account) :
    ((incrementFailedLogins now a).failedLoginAttempts =
      some (a.failedLoginAttempts.getD 0 + 1)) ∧
    (a.failedLoginAttempts.getD 0 + 1 = 5 →
      (incrementFailedLogins now a).lockUntil = some (now + 15 * 60 * 1000)) ∧
    (a.failedLoginAttempts.getD 0 + 1 < 5 →
      (incrementFailedLogins now a).lockUntil = a.lockUntil) ∧
    (a.failedLoginAttempts.getD 0 = 0 → ∀ n1 n2 n3 n4 n5 : Int,
      (incrementFailedLogins n5 (incrementFailedLogins n4 (incrementFailedLogins n3
        (incrementFailedLogins n2 (incrementFailedLogins n1 a))))).failedLoginAttempts =
          some 5 ∧
      (incrementFailedLogins n5 (incrementFailedLogins n4 (incrementFailedLogins n3
        (incrementFailedLogins n2 (incrementFailedLogins n1 a))))).lockUntil =
          some (n5 + 15 * 60 * 1000) ∧
      isLocked n5 (incrementFailedLogins n5 (incrementFailedLogins n4 (incrementFailedLogins n3
        (incrementFailedLogins n2 (incrementFailedLogins n1 a))))) = true) ∧
    (isLocked now a = true ↔ ∃ t, a.lockUntil = some t ∧ now < t) ∧
    (lockedStatus now a = isLocked now a) ∧
    ((resetFailedLogins a).failedLoginAttempts = some 0) ∧
    ((resetFailedLogins a).lockUntil = none) ∧
    (isLocked now (resetFailedLogins a) = false) := by
  refine ⟨rfl, ?_, ?_, ?_, ?_, rfl, rfl, rfl, rfl⟩
  · intro h5
    simp [incrementFailedLogins, h5]
  · intro hlt
    simp only [incrementFailedLogins]
    rw [if_neg (by omega)]
  · intro h0 n1 n2 n3 n4 n5
    simp [incrementFailedLogins, h0, isLocked, decide_eq_true_eq]
    try omega
  · cases hlu : a.lockUntil with
    | none => simp [isLocked, hlu]
    | some t =>
        simp [isLocked, hlu, decide_eq_true_eq]
        try omega

/-- Witness for C4: the fifth increment from a fresh account locks it for
15 minutes. -/
theorem C4_lockout_witness :
    (incrementFailedLogins 4000 (incrementFailedLogins 3000 (incrementFailedLogins 2000
      (incrementFailedLogins 1000 (incrementFailedLogins 0 sampleAccount))))).lockUntil =
      some (4000 + 15 * 60 * 1000) :=
  ((C4_lockout 0 sampleAccount).2.2.2.1 (by decide) 0 1000 2000 3000 4000).2.1

/-- C9: `verifyEmail` raises the invalid-token error exactly when the stored
token differs (strict equality) from the argument; on an account whose
stored token is absent, `verifyEmail` of an absent token succeeds, setting
`isEmailVerified` and clearing the token. -/
theorem C9_verifyEmail (token : Option String) (a : Account) :
    (verifyEmail token a = .error ("Invalid verification token") ↔
      a.security.emailVerificationToken ≠ token) ∧
    (a.security.emailVerificationToken = none →
      verifyEmail none a = .ok { a with security := { a.security with
        isEmailVerified := true, emailVerificationToken := none } }) := by
  constructor
  · unfold verifyEmail
    split
    · next h => exact iff_of_true rfl h
    · next h => exact iff_of_false (by simp) h
  · intro hn
    simp [verifyEmail, hn]

/-- Witness for C9: verifying with an absent token on a token-less account
succeeds and marks the email verified. -/
theorem C9_verifyEmail_witness :
    verifyEmail none sampleAccount = .ok { sampleAccount with
      security := { sampleAccount.security with
        isEmailVerified := true, emailVerificationToken := none } } :=
  (C9_verifyEmail none sampleAccount).2 rfl

/-- C3: `softDelete(query)` looks up one matching record with `findOne`;
with no match it fails not-found; on an already-deactivated match it fails
with the conflict-kind already-deleted error and leaves the store untouched;
otherwise it sets `accountStatus = 'deactivated'` and `deletedAt` to the
current time, persists the update, and returns the updated record. -/
theorem C3_softDelete (q : Account → Bool) (now : Int) (db : List Account) :
    (db.find? q = none → softDelete q now db = (.error .notFound, db)) ∧
    (∀ doc, db.find? q = some doc → doc.accountStatus = .deactivated →
      softDelete q now db = (.error .alreadyDeleted, db)) ∧
    (∀ doc, db.find? q = some doc → doc.accountStatus ≠ .deactivated →
      softDelete q now db =
        (.ok { doc with accountStatus := .deactivated, deletedAt := some now },
         saveDoc { doc with accountStatus := .deactivated, deletedAt := some now } db)) := by
  refine ⟨?_, ?_, ?_⟩
  · intro hfind
    simp [softDelete, hfind]
  · intro doc hfind hstatus
    simp [softDelete, hfind, hstatus]
  · intro doc hfind hstatus
    simp [softDelete, hfind, hstatus]

/-- A lookup query by account id, as a store predicate. -/
def queryById (i : Nat) : Account → Bool :=
  fun a => a.id = i

/-- Witness for C3: outcomes on a concrete two-account store. -/
theorem C3_softDelete_witness :
    softDelete (queryById 3) 77 [sampleAccount, deactivatedAccount] =
      (.error .notFound, [sampleAccount, deactivatedAccount]) ∧
    softDelete (queryById 2) 77 [sampleAccount, deactivatedAccount] =
      (.error .alreadyDeleted, [sampleAccount, deactivatedAccount]) ∧
    softDelete (queryById 1) 77 [sampleAccount, deactivatedAccount] =
      (.ok { sampleAccount with accountStatus := .deactivated, deletedAt := some 77 },
       saveDoc { sampleAccount with accountStatus := .deactivated, deletedAt := some 77 }
         [sampleAccount, deactivatedAccount]) :=
  ⟨(C3_softDelete (queryById 3) 77 [sampleAccount, deactivatedAccount]).1 (by decide),
   (C3_softDelete (queryById 2) 77 [sampleAccount, deactivatedAccount]).2.1
     deactivatedAccount (by decide) (by decide),
   (C3_softDelete (queryById 1) 77 [sampleAccount, deactivatedAccount]).2.2
     sampleAccount (by decide) (by decide)⟩

/-- C5: a find whose query does not constrain `accountStatus` gets the
`accountStatus = 'active'` constraint injected by the pre-find hook — it
returns only active records, exactly those active records matching the rest
of the query — while a query with an explicit `accountStatus` constraint
passes through the hook unchanged. -/
theorem C5_preFind_activeOnly (q : FindQuery) (db : List Account) :
    (q.accountStatus = none →
      (∀ a ∈ findAccounts q db, a.accountStatus = .active) ∧
      findAccounts q db =
        db.filter (fun a => decide (a.accountStatus = .active) && q.cond a)) ∧
    (∀ st, q.accountStatus = some st →
      preFindHook q = q ∧ findAccounts q db = db.filter (matchesQuery q)) := by
  constructor
  · intro hnone
    have hhook : preFindHook q = { q with accountStatus := some .active } := by
      simp [preFindHook, hnone]
    constructor
    · intro a ha
      have := List.mem_filter.mp (by simpa [findAccounts, hhook] using ha)
      have hmatch := this.2
      simp only [matchesQuery, Bool.and_eq_true, decide_eq_true_eq] at hmatch
      exact hmatch.1
    · show (db.filter (matchesQuery (preFindHook q))) = _
      rw [hhook]
      rfl
  · intro st hst
    have hhook : preFindHook q = q := by
      simp [preFindHook, hst]
    exact ⟨hhook, by simp [findAccounts, hhook]⟩

/-- A query with no `accountStatus` constraint. -/
def unscopedQuery : FindQuery :=
  { accountStatus := none, cond := fun _ => true }

/-- A query with an explicit `accountStatus` constraint. -/
def deactivatedOnlyQuery : FindQuery :=
  { accountStatus := some .deactivated, cond := fun _ => true }

/-- Witness for C5: the unscoped query over a mixed store returns exactly
the active records, and the explicitly-scoped query is left unchanged by the
hook. -/
theorem C5_preFind_activeOnly_witness :
    findAccounts unscopedQuery [sampleAccount, deactivatedAccount] =
      ([sampleAccount, deactivatedAccount].filter
        (fun a => decide (a.accountStatus = .active) && unscopedQuery.cond a)) ∧
    preFindHook deactivatedOnlyQuery = deactivatedOnlyQuery :=
  ⟨((C5_preFind_activeOnly unscopedQuery [sampleAccount, deactivatedAccount]).1 rfl).2,
   ((C5_preFind_activeOnly deactivatedOnlyQuery [sampleAccount, deactivatedAccount]).2
     .deactivated rfl).1⟩

/-- An account whose first name has interior capitals and whose phone number
carries a leading `+`, exercising the save-time normalizations. -/
def c2InputAccount : Account :=
  { sampleAccount with
    profile := { firstName := "jOHN", lastName := "doe" }
    phoneNumber := some ("+123") }

/-- Counterexample for C2: on a save, the registered hooks do not lowercase
the non-initial letters of a name (first name `"jOHN"` is stored as
`"JOHN"`, not the title-cased `"John"` the claim requires) and do not strip
the leading `+` of a phone number. -/
theorem C2_counterexample :
    (runSaveHooks id false c2InputAccount).profile.firstName = "JOHN" ∧
    ("JOHN" : String) ≠ "John" ∧
    (runSaveHooks id false c2InputAccount).phoneNumber = some ("+123") := by
  decide

/-- C2 (amended): on every save — independently of whether the password
changed — the registered hooks trim and lowercase a non-empty email, trim a
non-empty first/last name and capitalize the first letter of every word
while leaving the remaining letters unchanged, and never modify the phone
number. -/
theorem C2_save_normalizations (hash : String → String) (passwordModified : Bool)
    (a : Account) :
    ((runSaveHooks hash passwordModified a).email =
      if a.email.data.isEmpty then a.email else jsToLower (jsTrim a.email)) ∧
    ((runSaveHooks hash passwordModified a).profile.firstName =
      if a.profile.firstName.data.isEmpty then a.profile.firstName
      else capWordInitials (jsTrim a.profile.firstName)) ∧
    ((runSaveHooks hash passwordModified a).profile.lastName =
      if a.profile.lastName.data.isEmpty then a.profile.lastName
      else capWordInitials (jsTrim a.profile.lastName)) ∧
    ((runSaveHooks hash passwordModified a).phoneNumber = a.phoneNumber) := by
  by_cases he : a.email.data.isEmpty <;>
    by_cases hf : a.profile.firstName.data.isEmpty <;>
      by_cases hl : a.profile.lastName.data.isEmpty <;>
        cases passwordModified <;>
          simp [runSaveHooks, preSaveHook, preValidateHook, he, hf, hl]

/-- C8 helper: a metacharacter-free query compiles to a pure literal
pattern. -/
theorem compileRegexI_of_noMeta (q : String) (hq : noRegexMetachars q = true) :
    compileRegexI q = q.data.map RegexTok.lit := by
  unfold compileRegexI
  apply List.map_congr_left
  intro c hc
  have hall := List.all_eq_true.mp hq c hc
  have hdot : c ≠ '.' := by
    intro hceq
    rw [hceq] at hall
    simp [regexMetachars] at hall
  simp [hdot]

/-- C8 helper: a pure literal pattern matches a prefix exactly when the
case-folded needle is a prefix of the case-folded subject. -/
theorem matchesHere_map_lit (l : List Char) :
    ∀ t : List Char, matchesHere (l.map RegexTok.lit) t = isPrefixCI l t := by
  induction l with
  | nil => intro t; cases t <;> rfl
  | cons c cs ih =>
      intro t
      cases t with
      | nil => rfl
      | cons d ds => simp [matchesHere, isPrefixCI, tokMatches, ih]

/-- C8 helper: on metacharacter-free queries the unescaped regex test is
exactly case-insensitive literal substring containment. -/
theorem regexTestI_eq_containsCI (q s : String) (hq : noRegexMetachars q = true) :
    regexTestI q s = containsCI q s := by
  unfold regexTestI containsCI
  rw [compileRegexI_of_noMeta q hq]
  congr 1
  funext t
  exact matchesHere_map_lit q.data t

/-- Counterexample for C8: `searchUsers` builds its regular expression from
the raw query, so the query `"."` returns an active account none of whose
three fields contains `"."` as a literal substring — the result is not the
set of literal-substring matches the claim describes. -/
theorem C8_counterexample :
    searchUsers (".") [sampleAccount] = [sampleAccount] ∧
    containsCI (".") sampleAccount.profile.firstName = false ∧
    containsCI (".") sampleAccount.profile.lastName = false ∧
    containsCI (".") sampleAccount.email = false := by
  decide

/-- C8 (amended): `searchUsers(query)` filters the store to active accounts
matched by the unescaped case-insensitive regular expression built from the
query; for every query string free of regex metacharacters this is exactly
the claimed case-insensitive literal substring match against firstName,
lastName and email, restricted to active accounts. -/
theorem C8_searchUsers_substring (q : String) (db : List Account)
    (hq : noRegexMetachars q = true) :
    searchUsers q db = db.filter (fun a =>
      decide (a.accountStatus = .active) &&
        (containsCI q a.profile.firstName || containsCI q a.profile.lastName ||
         containsCI q a.email)) := by
  unfold searchUsers
  apply List.filter_congr
  intro a _
  rw [regexTestI_eq_containsCI _ _ hq, regexTestI_eq_containsCI _ _ hq,
    regexTestI_eq_containsCI _ _ hq]

/-- Witness for C8: the metacharacter-free query `"ann"` over a concrete
store reduces to the substring filter. -/
theorem C8_searchUsers_substring_witness :
    searchUsers ("ann") [sampleAccount, deactivatedAccount] =
      ([sampleAccount, deactivatedAccount].filter (fun a =>
        decide (a.accountStatus = .active) &&
          (containsCI ("ann") a.profile.firstName || containsCI ("ann") a.profile.lastName ||
           containsCI ("ann") a.email))) :=
  C8_searchUsers_substring ("ann") [sampleAccount, deactivatedAccount] (by decide)

/-- C10: the `hooks.post` literal defines `save` twice, so only the second
handler (the accountStatus-change logger) is registered for the post-save
event; the password-clearing handler is shadowed and never runs, and no
post-save hook changes the saved document's password field. -/
theorem C10_postSave_password_not_cleared :
    registeredPostSaveHandlers = [.logStatusChange] ∧
    ∀ d : Account, (runPostSave d).password = d.password := by
  exact ⟨rfl, fun d => rfl⟩

end PropertyHub
